import Mathlib

/-!
Shallow embedding of `src/task.py`, a small client-records manager backed by
PostgreSQL via psycopg2.  The module exposes seven operations over two tables:

  client(id SERIAL PRIMARY KEY, first_name VARCHAR(50) NOT NULL,
         last_name VARCHAR(50) NOT NULL, email VARCHAR(100) UNIQUE)
  phone_number(id SERIAL PRIMARY KEY,
               client_id INTEGER NOT NULL REFERENCES client(id),
               number VARCHAR(20) NOT NULL)

The embedding models the database state explicitly (row lists plus SERIAL
counters plus table-existence flags) and each Python function as a pure
function from states to `Except DbError` results, following the source
statement by statement.  PostgreSQL behaviour that the source relies on is
modelled where the claims depend on it:
  * VARCHAR(n) length enforcement (the docstrings say single-byte characters,
    so byte limits are modelled as character counts);
  * UNIQUE on `client.email`: every inserted email is a string (the Python
    default is the empty string, never NULL), so the constraint compares all
    values, the empty string included;
  * REFERENCES (RESTRICT on delete) on `phone_number.client_id`;
  * `~*` (case-insensitive POSIX regex): the patterns exercised by the spec
    are metacharacter-free literals, for which `~*` is exactly unanchored
    case-insensitive substring containment, which is what `reMatchCI` computes.
Python-level failure modes of the source are modelled as distinct error
constructors (`fetchone()` returning `None` then `None[0]` raising TypeError;
unpacking a 1-tuple raising ValueError; `set.intersection()` with no
arguments raising TypeError).
-/

/-- Errors an operation can surface: PostgreSQL constraint violations as
psycopg2 raises them, and Python runtime errors of the source itself. -/
inductive DbError where
  /-- psycopg2.errors.UniqueViolation: duplicate value in a UNIQUE column. -/
  | uniqueViolation
  /-- psycopg2.errors.ForeignKeyViolation: REFERENCES constraint failed. -/
  | foreignKeyViolation
  /-- psycopg2.errors.StringDataRightTruncation: value longer than VARCHAR(n). -/
  | stringDataRightTruncation
  /-- Python TypeError from `cur.fetchone()[0]` when the statement returned
  no row, so `fetchone()` gave `None` and `None[0]` fails. -/
  | noneTypeError
  /-- Python ValueError from unpacking `key, value` when the id SELECT of
  `update_client` returned no row, so `zip` yields 1-tuples. -/
  | valueErrorUnpack
  /-- Python TypeError from `set.intersection(*[])` called with no sets. -/
  | typeErrorIntersection
  /-- psycopg2 parameter-count mismatch between placeholders and arguments. -/
  | paramCountMismatch
deriving Repr, DecidableEq

/-- Constraint violations thrown by the store, as opposed to the empty-result
conditions. -/
def DbError.isConstraintViolation : DbError → Bool
  | .uniqueViolation => true
  | .foreignKeyViolation => true
  | .stringDataRightTruncation => true
  | _ => false

/-- One row of the `client` table. -/
structure ClientRow where
  id : Nat
  first_name : String
  last_name : String
  email : String
deriving Repr, DecidableEq

/-- One row of the `phone_number` table. -/
structure PhoneRow where
  id : Nat
  client_id : Nat
  number : String
deriving Repr, DecidableEq

/-- The database state: the two tables (rows in physical order), their
SERIAL sequences, and whether each table has been created. -/
structure Db where
  clientTable : Bool
  phoneTable : Bool
  clients : List ClientRow
  phones : List PhoneRow
  nextClientId : Nat
  nextPhoneId : Nat
deriving Repr, DecidableEq

/-- A fresh PostgreSQL database: no tables, SERIAL sequences at 1. -/
def emptyDb : Db :=
  { clientTable := false, phoneTable := false, clients := [], phones := [],
    nextClientId := 1, nextPhoneId := 1 }

/-- `create_database(cur)`: two `CREATE TABLE IF NOT EXISTS` statements.
Each statement creates its table when absent and does nothing (raising no
error) when it already exists; rows are never touched.  Never fails. -/
def create_database (db : Db) : Db :=
  let db1 := { db with clientTable := true }
  { db1 with phoneTable := true }

/-- `add_client(cur, first_name, last_name, email='')`:
`INSERT INTO client(first_name, last_name, email) VALUES(%s,%s,%s) RETURNING id`.
PostgreSQL first coerces the values into the VARCHAR columns (length check),
then checks the UNIQUE constraint on `email` against every existing row
(the inserted email is always a string, never NULL, so the empty string
participates in the constraint), then inserts with the next SERIAL id. -/
def add_client (db : Db) (first_name last_name : String)
    (email : String := "") : Except DbError (Nat × Db) :=
  if first_name.length > 50 || last_name.length > 50 || email.length > 100 then
    .error .stringDataRightTruncation
  else if db.clients.any (fun c => c.email == email) then
    .error .uniqueViolation
  else
    let id := db.nextClientId
    .ok (id, { db with
      clients := db.clients ++ [⟨id, first_name, last_name, email⟩],
      nextClientId := id + 1 })

/-- `add_phone(cur, client_id, phone)`:
`INSERT INTO phone_number(client_id, number) VALUES (%s,%s) RETURNING id`.
Length coercion first, then the REFERENCES check on `client_id`, then the
insert with the next SERIAL id. -/
def add_phone (db : Db) (client_id : Nat) (phone : String) :
    Except DbError (Nat × Db) :=
  if phone.length > 20 then
    .error .stringDataRightTruncation
  else if db.clients.any (fun c => c.id == client_id) then
    let id := db.nextPhoneId
    .ok (id, { db with
      phones := db.phones ++ [⟨id, client_id, phone⟩],
      nextPhoneId := id + 1 })
  else
    .error .foreignKeyViolation

/-- Python `dict.setdefault(k, v)` on an insertion-ordered dictionary
modelled as an association list: if `k` is present the dict is unchanged,
otherwise `(k, v)` is appended at the end. -/
def dictSetdefault (d : List (String × String)) (k v : String) :
    List (String × String) :=
  if d.any (fun p => p.1 == k) then d else d ++ [(k, v)]

/-- Python `dict.values()` on an insertion-ordered dictionary: the values in
insertion order. -/
def dictValues (d : List (String × String)) : List String :=
  d.map Prod.snd

/-- `update_client(cur, id, data)`: reads the current row with
`SELECT first_name, last_name, email FROM client WHERE id = %s`, builds
`old_data = zip(('first_name','last_name','email'), *cur.fetchall())` and
runs `data.setdefault(key, value)` for each pair.  When the SELECT returns
no row, `zip` has a single argument and yields 1-tuples, so unpacking
`key, value` raises ValueError.  The source then also builds a `new_data`
list (`new_data.append(data[key])`) but never uses it: the UPDATE is issued
with `(*data.values(), id)`, i.e. the dictionary's values in insertion
order, bound positionally to `SET first_name = %s, last_name = %s,
email = %s WHERE id = %s`.  PostgreSQL coerces the three values (length
check), checks UNIQUE on the new email against the other rows, updates the
row, and `RETURNING id` gives the id back. -/
def update_client (db : Db) (id : Nat) (data : List (String × String)) :
    Except DbError (Nat × Db) :=
  match db.clients.filter (fun c => c.id == id) with
  | [c] =>
    let d1 := dictSetdefault data "first_name" c.first_name
    let d2 := dictSetdefault d1 "last_name" c.last_name
    let d3 := dictSetdefault d2 "email" c.email
    match dictValues d3 with
    | [v0, v1, v2] =>
      if v0.length > 50 || v1.length > 50 || v2.length > 100 then
        .error .stringDataRightTruncation
      else if db.clients.any (fun cl => cl.id != id && cl.email == v2) then
        .error .uniqueViolation
      else
        .ok (id, { db with clients := db.clients.map (fun cl =>
          if cl.id == id then
            { cl with first_name := v0, last_name := v1, email := v2 }
          else cl) })
    | _ => .error .paramCountMismatch
  | _ => .error .valueErrorUnpack

/-- Whether a phone row matches the (client_id, number) WHERE clause of
`delete_phone`. -/
def phoneMatches (client_id : Nat) (phone : String) (p : PhoneRow) : Bool :=
  p.client_id == client_id && p.number == phone

/-- `delete_phone(cur, client_id, phone)`:
`DELETE FROM phone_number WHERE client_id = %s AND number = %s RETURNING id`
deletes every matching row; `cur.fetchone()[0]` then takes the id of the
first returned row, raising TypeError (`None[0]`) when no row matched. -/
def delete_phone (db : Db) (client_id : Nat) (phone : String) :
    Except DbError (Nat × Db) :=
  match db.phones.filter (phoneMatches client_id phone) with
  | [] => .error .noneTypeError
  | m :: _ =>
    .ok (m.id, { db with
      phones := db.phones.filter (fun p => !(phoneMatches client_id phone p)) })

/-- First statement of `delete_client`:
`DELETE FROM phone_number WHERE client_id = %s` (no RETURNING, never read). -/
def deletePhonesOf (db : Db) (id : Nat) : Db :=
  { db with phones := db.phones.filter (fun p => p.client_id != id) }

/-- Second statement of `delete_client`:
`DELETE FROM client WHERE id = %s RETURNING id`.  PostgreSQL refuses to
delete a client row still referenced from `phone_number` (REFERENCES is
RESTRICT by default); with no referencing phone, every row with this id is
deleted, and `cur.fetchone()[0]` takes the returned id, raising TypeError
(`None[0]`) when no row matched. -/
def deleteClientRow (db : Db) (id : Nat) : Except DbError (Nat × Db) :=
  if db.phones.any (fun p => p.client_id == id) then
    .error .foreignKeyViolation
  else
    match db.clients.filter (fun c => c.id == id) with
    | [] => .error .noneTypeError
    | _ =>
      .ok (id, { db with clients := db.clients.filter (fun c => c.id != id) })

/-- `delete_client(cur, id)`: deletes the client's phone rows first, then the
client row (see `deletePhonesOf` and `deleteClientRow`). -/
def delete_client (db : Db) (id : Nat) : Except DbError (Nat × Db) :=
  deleteClientRow (deletePhonesOf db id) id

/-- The searchable columns `find_client` accepts in its request dictionary
(the source interpolates the key as a column name with `AsIs`; these four are
the ones the docstring and the spec admit). -/
inductive SearchField where
  | first_name
  | last_name
  | email
  | number
deriving Repr, DecidableEq

/-- ASCII case folding on a character's code point (the case folding `~*`
performs on the spec's data, which is ASCII). -/
def charLowerNat (c : Char) : Nat :=
  if 65 ≤ c.toNat ∧ c.toNat ≤ 90 then c.toNat + 32 else c.toNat

/-- Whether `pat` occurs as a contiguous sublist of `s`. -/
def charsContain (s pat : List Nat) : Bool :=
  match s with
  | [] => pat.isEmpty
  | _ :: rest => pat.isPrefixOf s || charsContain rest pat

/-- PostgreSQL `s ~* pat` for a metacharacter-free pattern: unanchored
case-insensitive substring containment (POSIX regex matches are unanchored,
`~*` folds case). -/
def reMatchCI (pat s : String) : Bool :=
  charsContain (s.toList.map charLowerNat) (pat.toList.map charLowerNat)

/-- One criterion of `find_client`:
`SELECT DISTINCT c.id FROM client c LEFT JOIN phone_number p ON
p.client_id = c.id WHERE col ~* %s`.  For a client column the LEFT JOIN
keeps every client at least once, so the result is the ids of the clients
whose column matches; for `number` the WHERE clause filters the joined
rows, so a client qualifies when some phone row it owns matches (a client
with no phones joins against NULL, which never matches). -/
def matchIds (db : Db) (f : SearchField) (pat : String) : List Nat :=
  match f with
  | .first_name =>
    (db.clients.filter (fun c => reMatchCI pat c.first_name)).map (fun c => c.id)
  | .last_name =>
    (db.clients.filter (fun c => reMatchCI pat c.last_name)).map (fun c => c.id)
  | .email =>
    (db.clients.filter (fun c => reMatchCI pat c.email)).map (fun c => c.id)
  | .number =>
    (db.clients.filter (fun c =>
      db.phones.any (fun p => p.client_id == c.id && reMatchCI pat p.number))).map
      (fun c => c.id)

/-- `find_client(cur, request)`: one SELECT per request entry, each result
collected as a set of ids, then `set.intersection(*id_sets)`.  With an empty
request, `set.intersection` is called with no arguments at all and raises
TypeError.  Otherwise the intersection is modelled by filtering the first
criterion's ids by membership in each further criterion's ids (the Python
list order out of a set is arbitrary; membership is the meaningful part). -/
def find_client (db : Db) (request : List (SearchField × String)) :
    Except DbError (List Nat) :=
  match request with
  | [] => .error .typeErrorIntersection
  | fv :: rest =>
    .ok (rest.foldl
      (fun acc fv2 => acc.filter (fun i => i ∈ matchIds db fv2.1 fv2.2))
      (matchIds db fv.1 fv.2))

/-- Referential integrity: every phone row references an existing client. -/
def Wf (db : Db) : Prop :=
  ∀ p ∈ db.phones, ∃ c ∈ db.clients, c.id = p.client_id

/-- The service's operations, for stating state-invariant preservation. -/
inductive Op where
  | createDatabase
  | addClient (first_name last_name email : String)
  | addPhone (client_id : Nat) (number : String)
  | updateClient (id : Nat) (data : List (String × String))
  | deletePhone (client_id : Nat) (number : String)
  | deleteClient (id : Nat)
deriving Repr, DecidableEq

/-- Run one operation of the service, returning the successor state on
success. -/
def applyOp (db : Db) : Op → Except DbError Db
  | .createDatabase => .ok (create_database db)
  | .addClient fn ln em => (add_client db fn ln em).map Prod.snd
  | .addPhone cid num => (add_phone db cid num).map Prod.snd
  | .updateClient id data => (update_client db id data).map Prod.snd
  | .deletePhone cid num => (delete_phone db cid num).map Prod.snd
  | .deleteClient id => (delete_client db id).map Prod.snd

/-! ## Concrete databases used by counterexamples and witnesses -/

/-- An initialized database holding one client, id 1. -/
def oneClientDb : Db :=
  { clientTable := true, phoneTable := true,
    clients := [⟨1, "Ann", "Bell", "ann@x"⟩], phones := [],
    nextClientId := 2, nextPhoneId := 1 }

/-- The spec's demo data: Petya (id 1) and Vasya (id 2), no phones yet. -/
def demoClientsDb : Db :=
  { clientTable := true, phoneTable := true,
    clients := [⟨1, "Petya", "Petrov", "petrusha@inbox.com"⟩,
                ⟨2, "Vasya", "Vasilyev", "vasyandr@inbox.com"⟩],
    phones := [], nextClientId := 3, nextPhoneId := 1 }

/-- The demo data with phones: "123" and "321" for Petya, "6543" and "456"
for Vasya. -/
def demoDb : Db :=
  { demoClientsDb with
    phones := [⟨1, 1, "123"⟩, ⟨2, 1, "321"⟩, ⟨3, 2, "6543"⟩, ⟨4, 2, "456"⟩],
    nextPhoneId := 5 }

/-! ## C1 -/

/-- C1: the claim fails on the code.  `update_client` builds the correctly
merged `new_data` list but never uses it; the UPDATE is bound to
`data.values()` in dictionary insertion order.  Updating client 1 of
`oneClientDb` (Ann, Bell, ann@x) with only `{"last_name": "Xu"}` is supposed
to yield (Ann, Xu, ann@x); the code instead writes first_name := "Xu",
last_name := "Ann", email := "ann@x", because after the `setdefault` calls
the dictionary's insertion order is (last_name, first_name, email) while the
SET clause expects (first_name, last_name, email). -/
theorem update_client_scrambles_columns :
    update_client oneClientDb 1 [("last_name", "Xu")] =
      .ok (1, { oneClientDb with clients := [⟨1, "Xu", "Ann", "ann@x"⟩] }) := by
  rfl

/-! ## C2 -/

/-- C2 counterexample: the claim says adding two clients that both have the
empty-string email succeeds for both.  On a fresh database the first
`add_client` with the default email succeeds and the second fails with
UniqueViolation: the inserted email is the SQL string `''`, not NULL, so the
UNIQUE constraint on `client.email` rejects the second row. -/
theorem add_client_second_empty_email_fails :
    add_client (create_database emptyDb) "Petya" "Petrov" =
      .ok (1, { create_database emptyDb with
        clients := [⟨1, "Petya", "Petrov", ""⟩], nextClientId := 2 }) ∧
    (match add_client (create_database emptyDb) "Petya" "Petrov" with
     | .ok r => add_client r.2 "Vasya" "Vasilyev"
     | .error e => .error e) = .error .uniqueViolation := by
  exact ⟨rfl, rfl⟩

/-- C2 (amended): under the schema's VARCHAR limits, `add_client` fails if
and only if the email — the empty string included — is already present among
the existing clients, the failure always being a UniqueViolation; otherwise
it inserts the row with the next SERIAL id. -/
theorem add_client_uniqueViolation_iff (db : Db) (fn ln em : String)
    (hfn : fn.length ≤ 50) (hln : ln.length ≤ 50) (hem : em.length ≤ 100) :
    ((∃ e, add_client db fn ln em = .error e) ↔ ∃ c ∈ db.clients, c.email = em) ∧
    (∀ e, add_client db fn ln em = .error e → e = .uniqueViolation) ∧
    ((∀ c ∈ db.clients, c.email ≠ em) →
      add_client db fn ln em =
        .ok (db.nextClientId, { db with
          clients := db.clients ++ [⟨db.nextClientId, fn, ln, em⟩],
          nextClientId := db.nextClientId + 1 })) := by
  have hcond : (fn.length > 50 || ln.length > 50 || em.length > 100) = false := by
    simp [Nat.not_lt.mpr hfn, Nat.not_lt.mpr hln, Nat.not_lt.mpr hem]
  by_cases hdup : ∃ c ∈ db.clients, c.email = em
  · have hany : db.clients.any (fun c => c.email == em) = true := by
      simp [List.any_eq_true, beq_iff_eq]; exact hdup
    refine ⟨⟨fun _ => hdup, fun _ => ⟨.uniqueViolation, by simp [add_client, hcond, hany]⟩⟩,
      ?_, ?_⟩
    · intro e he
      simp [add_client, hcond, hany] at he
      exact he.symm
    · intro hno
      obtain ⟨c, hc, hce⟩ := hdup
      exact absurd hce (hno c hc)
  · have hany : db.clients.any (fun c => c.email == em) = false := by
      simp [List.any_eq_true, beq_iff_eq]
      intro c hc
      exact fun hce => hdup ⟨c, hc, hce⟩
    refine ⟨⟨fun ⟨e, he⟩ => ?_, fun h => absurd h hdup⟩, ?_, ?_⟩
    · simp [add_client, hcond, hany] at he
    · intro e he
      simp [add_client, hcond, hany] at he
    · intro _
      simp [add_client, hcond, hany]

/-- C2 witness: instantiates the amended theorem on `oneClientDb` with the
already-present email "ann@x". -/
theorem add_client_uniqueViolation_iff_witness :
    ("Zoe".length ≤ 50 ∧ "Fox".length ≤ 50 ∧ "ann@x".length ≤ 100) ∧
    (((∃ e, add_client oneClientDb "Zoe" "Fox" "ann@x" = .error e) ↔
        ∃ c ∈ oneClientDb.clients, c.email = "ann@x") ∧
      (∀ e, add_client oneClientDb "Zoe" "Fox" "ann@x" = .error e →
        e = .uniqueViolation) ∧
      ((∀ c ∈ oneClientDb.clients, c.email ≠ "ann@x") →
        add_client oneClientDb "Zoe" "Fox" "ann@x" =
          .ok (oneClientDb.nextClientId, { oneClientDb with
            clients := oneClientDb.clients ++
              [⟨oneClientDb.nextClientId, "Zoe", "Fox", "ann@x"⟩],
            nextClientId := oneClientDb.nextClientId + 1 }))) :=
  ⟨by decide,
   add_client_uniqueViolation_iff oneClientDb "Zoe" "Fox" "ann@x"
     (by decide) (by decide) (by decide)⟩

/-! ## C9 -/

/-- C9: `find_client` with an empty criteria mapping collects no id sets and
calls `set.intersection()` with no arguments, which raises TypeError: for
every database state it returns an error, so in particular neither the list
of all client ids nor the empty list. -/
theorem find_client_empty_request_raises (db : Db) :
    find_client db [] = .error .typeErrorIntersection ∧
    ∀ l, find_client db [] ≠ .ok l := by
  refine ⟨rfl, fun l h => ?_⟩
  simp [find_client] at h

/-! ## C3 -/

/-- C3: against a nonexistent client id, `update_client` fails from the
empty SELECT result (the ValueError raised when unpacking the 1-tuples that
`zip` yields from an empty fetch, before any UPDATE is issued) and
`delete_client` fails from the empty RETURNING result (`fetchone()` gives
`None`); against a (client_id, number) pair with no matching phone row,
`delete_phone` fails the same way.  Neither failure is a constraint
violation, and no row is affected: under referential integrity the phone
DELETE of `delete_client` removes nothing, and the phone DELETE of
`delete_phone` removes nothing. -/
theorem missing_row_ops_fail_without_effect (db : Db) (id cid : Nat)
    (num : String) (data : List (String × String))
    (hwf : Wf db)
    (hnc : ∀ c ∈ db.clients, c.id ≠ id)
    (hnp : ∀ p ∈ db.phones, phoneMatches cid num p = false) :
    update_client db id data = .error .valueErrorUnpack ∧
    delete_client db id = .error .noneTypeError ∧
    delete_phone db cid num = .error .noneTypeError ∧
    deletePhonesOf db id = db ∧
    db.phones.filter (fun p => !(phoneMatches cid num p)) = db.phones ∧
    DbError.isConstraintViolation .valueErrorUnpack = false ∧
    DbError.isConstraintViolation .noneTypeError = false := by
  have hcfilter : db.clients.filter (fun c => c.id == id) = [] :=
    List.filter_eq_nil_iff.mpr (fun c hc => by
      simp [beq_iff_eq]
      exact hnc c hc)
  have hnophone : ∀ p ∈ db.phones, p.client_id ≠ id := by
    intro p hp
    obtain ⟨c, hc, hcid⟩ := hwf p hp
    exact hcid ▸ hnc c hc
  have hpe : db.phones.filter (fun p => p.client_id != id) = db.phones :=
    List.filter_eq_self.mpr (fun p hp => by
      simp [bne_iff_ne]
      exact hnophone p hp)
  have hdpo : deletePhonesOf db id = db := by
    unfold deletePhonesOf
    rw [hpe]
  have hany : db.phones.any (fun p => p.client_id == id) = false := by
    rw [Bool.eq_false_iff]
    intro htrue
    obtain ⟨p, hp, hpc⟩ := List.any_eq_true.mp htrue
    exact hnophone p hp (beq_iff_eq.mp hpc)
  have hpfilter : db.phones.filter (phoneMatches cid num) = [] :=
    List.filter_eq_nil_iff.mpr (fun p hp => by simp [hnp p hp])
  refine ⟨?_, ?_, ?_, hdpo, ?_, rfl, rfl⟩
  · simp only [update_client, hcfilter]
  · simp only [delete_client, hdpo, deleteClientRow, hany, hcfilter]
    rfl
  · simp only [delete_phone, hpfilter]
  · exact List.filter_eq_self.mpr (fun p hp => by simp [hnp p hp])

/-- C3 witness: instantiates the theorem on the demo database with the
nonexistent client id 99 and the unmatched phone pair (99, "9"). -/
theorem missing_row_ops_fail_witness :
    (Wf demoDb ∧ (∀ c ∈ demoDb.clients, c.id ≠ 99) ∧
      (∀ p ∈ demoDb.phones, phoneMatches 99 "9" p = false)) ∧
    (update_client demoDb 99 [("first_name", "X")] = .error .valueErrorUnpack ∧
      delete_client demoDb 99 = .error .noneTypeError ∧
      delete_phone demoDb 99 "9" = .error .noneTypeError ∧
      deletePhonesOf demoDb 99 = demoDb ∧
      demoDb.phones.filter (fun p => !(phoneMatches 99 "9" p)) = demoDb.phones ∧
      DbError.isConstraintViolation .valueErrorUnpack = false ∧
      DbError.isConstraintViolation .noneTypeError = false) :=
  ⟨⟨by unfold Wf; decide, by decide, by decide⟩,
   missing_row_ops_fail_without_effect demoDb 99 99 "9" [("first_name", "X")]
     (by unfold Wf; decide) (by decide) (by decide)⟩

/-! ## C4 -/

/-- The claim's reading of a single search criterion: client id `i`
satisfies `(f, pat)` when a client row carrying id `i` matches the pattern
in the corresponding column — for `number`, when some phone row owned by
that client matches. -/
def criterionHolds (db : Db) (f : SearchField) (pat : String) (i : Nat) : Prop :=
  ∃ c ∈ db.clients, c.id = i ∧
    match f with
    | .first_name => reMatchCI pat c.first_name = true
    | .last_name => reMatchCI pat c.last_name = true
    | .email => reMatchCI pat c.email = true
    | .number => ∃ p ∈ db.phones, p.client_id = c.id ∧ reMatchCI pat p.number = true

/-- Membership in one criterion's SELECT (`matchIds`) agrees with the
claim's reading of that criterion. -/
theorem mem_matchIds (db : Db) (f : SearchField) (pat : String) (i : Nat) :
    i ∈ matchIds db f pat ↔ criterionHolds db f pat i := by
  cases f <;>
    simp only [matchIds, criterionHolds, List.mem_map, List.mem_filter,
      List.any_eq_true, Bool.and_eq_true, beq_iff_eq] <;>
    tauto

/-- Membership in the fold that intersects the id sets: an id survives
exactly when it is in the initial set and in every further criterion's
set. -/
theorem mem_foldl_filter (db : Db) (rest : List (SearchField × String))
    (acc : List Nat) (i : Nat) :
    (i ∈ rest.foldl
        (fun acc2 fv2 => acc2.filter (fun j => j ∈ matchIds db fv2.1 fv2.2))
        acc) ↔
      (i ∈ acc ∧ ∀ fv ∈ rest, i ∈ matchIds db fv.1 fv.2) := by
  induction rest generalizing acc with
  | nil => simp
  | cons fv rest ih =>
    rw [List.foldl_cons, ih]
    simp only [List.mem_filter, List.forall_mem_cons, decide_eq_true_eq]
    tauto

/-- C4: for a non-empty request, `find_client` succeeds and returns exactly
the client ids that satisfy every supplied criterion — the intersection of
the per-field case-insensitive match sets, phone numbers matched through
the join to `phone_number`. -/
theorem find_client_intersection (db : Db)
    (request : List (SearchField × String)) (hne : request ≠ []) :
    ∃ l, find_client db request = .ok l ∧
      ∀ i, (i ∈ l ↔ ∀ fv ∈ request, criterionHolds db fv.1 fv.2 i) := by
  match request with
  | [] => exact absurd rfl hne
  | fv :: rest =>
    refine ⟨_, rfl, fun i => ?_⟩
    rw [mem_foldl_filter]
    simp only [List.forall_mem_cons, mem_matchIds]

/-- C4 witness: on the demo clients, searching first_name for "as" matches
"Vasya" case-insensitively and returns exactly client id 2. -/
theorem find_client_intersection_witness :
    ([(SearchField.first_name, "as")] ≠ ([] : List (SearchField × String))) ∧
    find_client demoClientsDb [(SearchField.first_name, "as")] = .ok [2] ∧
    (∃ l, find_client demoClientsDb [(SearchField.first_name, "as")] = .ok l ∧
      ∀ i, (i ∈ l ↔ ∀ fv ∈ [(SearchField.first_name, "as")],
        criterionHolds demoClientsDb fv.1 fv.2 i)) :=
  ⟨by decide, rfl,
   find_client_intersection demoClientsDb [(SearchField.first_name, "as")]
     (by decide)⟩

/-! ## C5 -/

/-- C5: for an existing client id, `delete_client` deletes the phone rows
owned by the id first and the client row second, returns the id, and leaves
no client row with that id (a lookup finds nothing).  The order is what
keeps the second DELETE legal: running the client-row DELETE directly while
a phone still references the id fails with a ForeignKeyViolation. -/
theorem delete_client_removes_phones_then_client (db : Db) (id : Nat)
    (hc : ∃ c ∈ db.clients, c.id = id) :
    (∃ db2, delete_client db id = .ok (id, db2) ∧
      db2.phones = db.phones.filter (fun p => p.client_id != id) ∧
      db2.clients = db.clients.filter (fun c => c.id != id) ∧
      (∀ p ∈ db2.phones, p.client_id ≠ id) ∧
      (∀ c ∈ db2.clients, c.id ≠ id)) ∧
    ((∃ p ∈ db.phones, p.client_id = id) →
      deleteClientRow db id = .error .foreignKeyViolation) := by
  obtain ⟨c, hcm, hcid⟩ := hc
  have hany1 : (deletePhonesOf db id).phones.any
      (fun p => p.client_id == id) = false := by
    rw [Bool.eq_false_iff]
    intro htrue
    obtain ⟨p, hp, hpc⟩ := List.any_eq_true.mp htrue
    have := (List.mem_filter.mp hp).2
    rw [bne_iff_ne] at this
    exact this (beq_iff_eq.mp hpc)
  have hcf : c ∈ (deletePhonesOf db id).clients.filter
      (fun c2 => c2.id == id) :=
    List.mem_filter.mpr ⟨hcm, by simp [hcid]⟩
  constructor
  · cases hfe : (deletePhonesOf db id).clients.filter (fun c2 => c2.id == id) with
    | nil =>
      rw [hfe] at hcf
      exact absurd hcf (List.not_mem_nil c)
    | cons hd tl =>
      refine ⟨{ deletePhonesOf db id with
          clients := (deletePhonesOf db id).clients.filter
            (fun c2 => c2.id != id) }, ?_, rfl, rfl, ?_, ?_⟩
      · show delete_client db id = _
        unfold delete_client deleteClientRow
        rw [hany1, hfe]
        rfl
      · intro p hp
        have := (List.mem_filter.mp hp).2
        exact bne_iff_ne.mp this
      · intro c2 hc2
        have := (List.mem_filter.mp hc2).2
        exact bne_iff_ne.mp this
  · intro ⟨p, hpm, hpc⟩
    have hany2 : db.phones.any (fun p2 => p2.client_id == id) = true :=
      List.any_eq_true.mpr ⟨p, hpm, by simp [hpc]⟩
    unfold deleteClientRow
    rw [hany2]
    rfl

/-- C5 witness: deleting client 1 of the demo database removes its two
phones and its client row. -/
theorem delete_client_removes_witness :
    (∃ c ∈ demoDb.clients, c.id = 1) ∧
    ((∃ db2, delete_client demoDb 1 = .ok (1, db2) ∧
      db2.phones = demoDb.phones.filter (fun p => p.client_id != 1) ∧
      db2.clients = demoDb.clients.filter (fun c => c.id != 1) ∧
      (∀ p ∈ db2.phones, p.client_id ≠ 1) ∧
      (∀ c ∈ db2.clients, c.id ≠ 1)) ∧
    ((∃ p ∈ demoDb.phones, p.client_id = 1) →
      deleteClientRow demoDb 1 = .error .foreignKeyViolation)) :=
  ⟨by decide, delete_client_removes_phones_then_client demoDb 1 (by decide)⟩

/-! ## C6 -/

/-- C6: within the VARCHAR(20) limit, `add_phone` fails with a
ForeignKeyViolation — inserting no row, so the phone table is untouched —
exactly when no client carries the given id, and otherwise appends one row
with the next SERIAL id and returns that id. -/
theorem add_phone_fk_or_insert (db : Db) (cid : Nat) (num : String)
    (hlen : num.length ≤ 20) :
    ((∀ c ∈ db.clients, c.id ≠ cid) →
      (add_phone db cid num = .error .foreignKeyViolation ∧
        ∀ r, add_phone db cid num ≠ .ok r)) ∧
    ((∃ c ∈ db.clients, c.id = cid) →
      add_phone db cid num =
        .ok (db.nextPhoneId, { db with
          phones := db.phones ++ [⟨db.nextPhoneId, cid, num⟩],
          nextPhoneId := db.nextPhoneId + 1 })) := by
  have hnl : ¬(num.length > 20) := Nat.not_lt.mpr hlen
  constructor
  · intro hno
    have hany : db.clients.any (fun c => c.id == cid) = false := by
      rw [Bool.eq_false_iff]
      intro htrue
      obtain ⟨c, hc, hcc⟩ := List.any_eq_true.mp htrue
      exact hno c hc (beq_iff_eq.mp hcc)
    have heq : add_phone db cid num = .error .foreignKeyViolation := by
      unfold add_phone
      rw [if_neg hnl, hany]
      rfl
    exact ⟨heq, fun r h => by rw [heq] at h; exact Except.noConfusion h⟩
  · intro ⟨c, hc, hcc⟩
    have hany : db.clients.any (fun c2 => c2.id == cid) = true :=
      List.any_eq_true.mpr ⟨c, hc, by simp [hcc]⟩
    unfold add_phone
    rw [if_neg hnl, hany]
    rfl

/-- C6 witness: adding phone "77" for the existing client 1 of the demo
clients inserts a row, while adding it for the unknown client 9 fails with
a ForeignKeyViolation. -/
theorem add_phone_fk_or_insert_witness :
    ("77".length ≤ 20) ∧
    (((∀ c ∈ demoClientsDb.clients, c.id ≠ 9) →
      (add_phone demoClientsDb 9 "77" = .error .foreignKeyViolation ∧
        ∀ r, add_phone demoClientsDb 9 "77" ≠ .ok r)) ∧
    ((∃ c ∈ demoClientsDb.clients, c.id = 9) →
      add_phone demoClientsDb 9 "77" =
        .ok (demoClientsDb.nextPhoneId, { demoClientsDb with
          phones := demoClientsDb.phones ++ [⟨demoClientsDb.nextPhoneId, 9, "77"⟩],
          nextPhoneId := demoClientsDb.nextPhoneId + 1 }))) :=
  ⟨by decide, add_phone_fk_or_insert demoClientsDb 9 "77" (by decide)⟩

/-! ## C8 -/

/-- C8: `create_database` is idempotent — running it twice is running it
once; it never errors, never touches rows or SERIAL state, and on an
already-initialized store (both tables present) it is the identity. -/
theorem create_database_idempotent (db : Db) :
    create_database (create_database db) = create_database db ∧
    (create_database db).clients = db.clients ∧
    (create_database db).phones = db.phones ∧
    (create_database db).nextClientId = db.nextClientId ∧
    (create_database db).nextPhoneId = db.nextPhoneId ∧
    (db.clientTable = true → db.phoneTable = true → create_database db = db) := by
  refine ⟨rfl, rfl, rfl, rfl, rfl, fun h1 h2 => ?_⟩
  cases db
  simp_all [create_database]

/-- C8 witness: the theorem instantiated on an initialized store. -/
theorem create_database_idempotent_witness :
    create_database (create_database (create_database emptyDb)) =
      create_database (create_database emptyDb) ∧
    (create_database (create_database emptyDb)).clients =
      (create_database emptyDb).clients ∧
    (create_database (create_database emptyDb)).phones =
      (create_database emptyDb).phones ∧
    (create_database (create_database emptyDb)).nextClientId =
      (create_database emptyDb).nextClientId ∧
    (create_database (create_database emptyDb)).nextPhoneId =
      (create_database emptyDb).nextPhoneId ∧
    ((create_database emptyDb).clientTable = true →
      (create_database emptyDb).phoneTable = true →
      create_database (create_database emptyDb) = create_database emptyDb) :=
  create_database_idempotent (create_database emptyDb)

/-! ## C10 -/

/-- A database in which client 1 owns two copies of the number "123". -/
def dupPhoneDb : Db :=
  { demoClientsDb with
    phones := [⟨1, 1, "123"⟩, ⟨2, 1, "123"⟩, ⟨3, 2, "456"⟩],
    nextPhoneId := 4 }

/-- C10: when at least two phone rows match the (client_id, number) pair,
`delete_phone` deletes every matching row — none survives — returns the id
of one of the deleted rows (the first match), keeps every non-matching row,
and leaves the client table alone. -/
theorem delete_phone_removes_all_matches (db : Db) (cid : Nat) (num : String)
    (hmul : 2 ≤ (db.phones.filter (phoneMatches cid num)).length) :
    ∃ rid db2, delete_phone db cid num = .ok (rid, db2) ∧
      rid ∈ (db.phones.filter (phoneMatches cid num)).map (fun p => p.id) ∧
      db2.phones = db.phones.filter (fun p => !(phoneMatches cid num p)) ∧
      (∀ p ∈ db2.phones, phoneMatches cid num p = false) ∧
      (∀ p ∈ db.phones, phoneMatches cid num p = false → p ∈ db2.phones) ∧
      db2.clients = db.clients := by
  cases hfe : db.phones.filter (phoneMatches cid num) with
  | nil =>
    rw [hfe] at hmul
    simp at hmul
  | cons m tl =>
    refine ⟨m.id,
      { db with phones := db.phones.filter (fun p => !(phoneMatches cid num p)) },
      ?_, ?_, rfl, ?_, ?_, rfl⟩
    · unfold delete_phone
      rw [hfe]
    · exact List.mem_map_of_mem _ (List.mem_cons_self m tl)
    · intro p hp
      have h2 := (List.mem_filter.mp hp).2
      simp only [Bool.not_eq_eq_eq_not, Bool.not_true] at h2
      exact h2
    · intro p hp hmf
      exact List.mem_filter.mpr ⟨hp, by simp [hmf]⟩

/-- C10 witness: with two copies of (1, "123") in the table, `delete_phone`
removes both and only them. -/
theorem delete_phone_removes_all_matches_witness :
    (2 ≤ (dupPhoneDb.phones.filter (phoneMatches 1 "123")).length) ∧
    (∃ rid db2, delete_phone dupPhoneDb 1 "123" = .ok (rid, db2) ∧
      rid ∈ (dupPhoneDb.phones.filter (phoneMatches 1 "123")).map
        (fun p => p.id) ∧
      db2.phones = dupPhoneDb.phones.filter
        (fun p => !(phoneMatches 1 "123" p)) ∧
      (∀ p ∈ db2.phones, phoneMatches 1 "123" p = false) ∧
      (∀ p ∈ dupPhoneDb.phones, phoneMatches 1 "123" p = false →
        p ∈ db2.phones) ∧
      db2.clients = dupPhoneDb.clients) :=
  ⟨by decide, delete_phone_removes_all_matches dupPhoneDb 1 "123" (by decide)⟩

/-! ## C7 -/

/-- C7: referential integrity — every phone row referencing an existing
client — is preserved by every successful operation of the service.  For
`delete_client` it is the phones-first deletion order that makes the client
DELETE pass the RESTRICT check and keeps the invariant. -/
theorem applyOp_preserves_wf (db db2 : Db) (op : Op)
    (hwf : Wf db) (h : applyOp db op = .ok db2) : Wf db2 := by
  cases op with
  | createDatabase =>
    simp only [applyOp, Except.ok.injEq] at h
    subst h
    exact hwf
  | addClient fn ln em =>
    simp only [applyOp] at h
    unfold add_client at h
    split at h
    · simp [Except.map] at h
    · split at h
      · simp [Except.map] at h
      · simp only [Except.map, Except.ok.injEq] at h
        subst h
        intro p hp
        obtain ⟨c, hc, he⟩ := hwf p hp
        exact ⟨c, List.mem_append_left _ hc, he⟩
  | addPhone cid num =>
    simp only [applyOp] at h
    unfold add_phone at h
    split at h
    · simp [Except.map] at h
    · split at h
      case isTrue hcond =>
        simp only [Except.map, Except.ok.injEq] at h
        subst h
        intro p hp
        rcases List.mem_append.mp hp with hold | hnew
        · obtain ⟨c, hc, he⟩ := hwf p hold
          exact ⟨c, hc, he⟩
        · obtain ⟨c, hc, hcc⟩ := List.any_eq_true.mp hcond
          have hpn : p = ⟨db.nextPhoneId, cid, num⟩ := by simpa using hnew
          subst hpn
          exact ⟨c, hc, beq_iff_eq.mp hcc⟩
      case isFalse =>
        simp [Except.map] at h
  | updateClient id data =>
    simp only [applyOp] at h
    unfold update_client at h
    split at h
    case h_2 => simp [Except.map] at h
    case h_1 c heq =>
      dsimp only at h
      split at h
      case h_2 => simp [Except.map] at h
      case h_1 v0 v1 v2 hv =>
        split at h
        · simp [Except.map] at h
        · split at h
          · simp [Except.map] at h
          · simp only [Except.map, Except.ok.injEq] at h
            subst h
            intro p hp
            obtain ⟨c2, hc2, he⟩ := hwf p hp
            refine ⟨_, List.mem_map_of_mem _ hc2, ?_⟩
            cases hid : (c2.id == id) <;> simpa using he
  | deletePhone cid num =>
    simp only [applyOp] at h
    unfold delete_phone at h
    split at h
    · simp [Except.map] at h
    · simp only [Except.map, Except.ok.injEq] at h
      subst h
      intro p hp
      exact hwf p (List.mem_filter.mp hp).1
  | deleteClient id =>
    simp only [applyOp] at h
    unfold delete_client deleteClientRow at h
    split at h
    · simp [Except.map] at h
    · split at h
      · simp [Except.map] at h
      · simp only [Except.map, Except.ok.injEq] at h
        subst h
        intro p hp
        have hp2 := List.mem_filter.mp hp
        obtain ⟨c, hc, he⟩ := hwf p hp2.1
        refine ⟨c, List.mem_filter.mpr ⟨hc, ?_⟩, he⟩
        rw [bne_iff_ne, he]
        exact bne_iff_ne.mp hp2.2

/-- C7 witness: adding a phone for the existing client 1 of the demo
clients succeeds and preserves referential integrity. -/
theorem applyOp_preserves_wf_witness :
    Wf demoClientsDb ∧
    applyOp demoClientsDb (.addPhone 1 "99") =
      .ok { demoClientsDb with phones := [⟨1, 1, "99"⟩], nextPhoneId := 2 } ∧
    Wf { demoClientsDb with phones := [⟨1, 1, "99"⟩], nextPhoneId := 2 } :=
  ⟨by unfold Wf; decide, by rfl,
   applyOp_preserves_wf demoClientsDb
     { demoClientsDb with phones := [⟨1, 1, "99"⟩], nextPhoneId := 2 }
     (.addPhone 1 "99") (by unfold Wf; decide) (by rfl)⟩

/-- C9 witness: the theorem instantiated on the demo database. -/
theorem find_client_empty_request_raises_witness :
    find_client demoDb [] = .error .typeErrorIntersection ∧
    ∀ l, find_client demoDb [] ≠ .ok l :=
  find_client_empty_request_raises demoDb
